import Mathlib

/-
Verification of the Starlark metric processor plugin against its
natural-language specification.

The repository snapshot contains the plugin's test file
(src/unnamed/part_000, package starlark) but not the implementation file
itself, so the processor (the Starlark struct with Init and Apply, the
script-visible Metric value, the tag and field dictionary views, the
iteration guard, the value marshaller and the deepcopy builtin) is
modelled here from the specification, with the repository's tests as the
authority wherever they pin down concrete behaviour.

Scripts are embedded shallowly: a script invocation is a list of
primitive operations on a heap of host metrics (reference 0 is the
wrapped input metric) followed by a return descriptor.  This captures
exactly the operations the specification assigns to the bridge layer:
attribute reads and writes, dictionary-view operations with the
iteration guard, deepcopy and fresh-metric allocation, and reads or
writes of the frozen module scope.
-/

set_option autoImplicit false

namespace Starlark

/-- Modelled from the spec: the host field-value union
`{string, int64, uint64, float64, bool}` (§3).  The float payload is an
abstract token (an integer); no claim performs float arithmetic, only
type discrimination and equality of values that are copied verbatim. -/
inductive FieldValue where
  | str (s : String)
  | int (i : Int)
  | uint (n : Nat)
  | float (payload : Int)
  | bool (b : Bool)
deriving DecidableEq

/-- Modelled from the spec: a host metric (§3): name, tag map
(string to string), field map (string to field-value), and a timestamp
in nanoseconds since the Unix epoch.  Maps are association lists in
host iteration order. -/
structure Metric where
  name : String
  tags : List (String × String)
  fields : List (String × FieldValue)
  time : Int
deriving DecidableEq

/-- Modelled from the spec: the script values that can reach the bridge
layer (§4.1).  Dict, list and tuple values are rejected by the
marshaller regardless of their contents, so they carry no payload. -/
inductive SValue where
  | noneV
  | strV (s : String)
  | intV (i : Int)
  | floatV (payload : Int)
  | boolV (b : Bool)
  | dictV
  | listV
  | tupleV
deriving DecidableEq

/-- Error kinds of §7. -/
inductive Err where
  | initError
  | typeError
  | keyError
  | attributeError
  | frozenError
  | runtimeGuard
  | scriptError
deriving DecidableEq

/-- Lookup in an association list (first match wins; keys are unique). -/
def alookup {α : Type} (k : String) : List (String × α) → Option α
  | [] => none
  | (k2, v) :: rest => if k2 = k then some v else alookup k rest

/-- Insert-or-replace in an association list: replaces the value in
place when the key is present, appends otherwise. -/
def ainsert {α : Type} (k : String) (v : α) : List (String × α) → List (String × α)
  | [] => [(k, v)]
  | (k2, v2) :: rest => if k2 = k then (k, v) :: rest else (k2, v2) :: ainsert k v rest

/-- Remove a key from an association list. -/
def aerase {α : Type} (k : String) : List (String × α) → List (String × α)
  | [] => []
  | (k2, v2) :: rest => if k2 = k then rest else (k2, v2) :: aerase k rest

/-- Modelled from the spec: the script-to-tag marshaller (§4.1): only
script strings are accepted as tag values; anything else is a
`TypeError`. -/
def toTagValue : SValue → Except Err String
  | .strV s => .ok s
  | _ => .error .typeError

/-- Modelled from the spec: the script-to-field marshaller (§4.1):
strings, booleans and floats pass through; integers become int64 when in
the signed 64-bit range, uint64 when only in the unsigned range, and are
rejected beyond that; every other script type is a `TypeError`. -/
def toFieldValue : SValue → Except Err FieldValue
  | .strV s => .ok (.str s)
  | .boolV b => .ok (.bool b)
  | .floatV p => .ok (.float p)
  | .intV i =>
    if i < -(2 ^ 63) then .error .typeError
    else if i < 2 ^ 63 then .ok (.int i)
    else if i < 2 ^ 64 then .ok (.uint i.toNat)
    else .error .typeError
  | _ => .error .typeError

/-- Membership of a script value in the field-value union of §3, stated
independently of the marshaller: strings, booleans, floats, and integers
representable in 64 bits. -/
def fieldRepresentable : SValue → Bool
  | .strV _ => true
  | .boolV _ => true
  | .floatV _ => true
  | .intV i => decide (-(2 ^ 63) ≤ i) && decide (i < 2 ^ 64)
  | _ => false

/-- Whether a script value is a string. -/
def SValue.isStringV : SValue → Bool
  | .strV _ => true
  | _ => false

/-- The two dictionary views of a metric (§4.2, §4.3). -/
inductive View where
  | tags
  | fields
deriving DecidableEq

/-- Modelled from the spec: the script-side wrapper state of one host
metric (§3, §4.4): the metric plus one iteration-guard counter per
dictionary view (§4.5). -/
structure MState where
  m : Metric
  tagsIter : Nat
  fieldsIter : Nat
deriving DecidableEq

/-- The guard counter of the given view. -/
def MState.iterOf (ms : MState) : View → Nat
  | .tags => ms.tagsIter
  | .fields => ms.fieldsIter

/-- Modelled from the spec: the state of one `apply` invocation: a heap
of wrapped host metrics.  Reference 0 is the input metric handed to
`apply`; `deepcopy` and `Metric(name)` append fresh metrics (§4.4). -/
structure VState where
  heap : List MState
deriving DecidableEq

/-- Modelled from the spec: the primitive operations a script can direct
at the bridge layer (§4.1 to §4.5), each naming the heap reference of
the metric it touches; plus a read and a (forbidden) write of the
frozen module scope (§3, §4.6 step 4). -/
inductive Op where
  | setName (r : Nat) (v : SValue)
  | setTime (r : Nat) (v : SValue)
  | setKey (r : Nat) (V : View) (k : String) (v : SValue)
  | popKey (r : Nat) (V : View) (k : String)
  | popitem (r : Nat) (V : View)
  | clearAll (r : Nat) (V : View)
  | beginIter (r : Nat) (V : View)
  | endIter (r : Nat) (V : View)
  | readView (r : Nat) (V : View)
  | setattrView (r : Nat) (V : View)
  | deepcopy (r : Nat)
  | newMetric (name : String)
  | readGlobal
  | writeGlobal
deriving DecidableEq

/-- Modelled from the spec: `v[k] = s` on the tag view (§4.2): marshal
the value (strings only), replace in place when the key exists (not
structural, permitted mid-iteration, §4.5), otherwise check the guard
and insert. -/
def setTag (ms : MState) (k : String) (v : SValue) : Except Err MState :=
  match toTagValue v with
  | .error e => .error e
  | .ok s =>
    if (alookup k ms.m.tags).isSome then
      .ok { ms with m := { ms.m with tags := ainsert k s ms.m.tags } }
    else if ms.tagsIter ≠ 0 then .error .runtimeGuard
    else .ok { ms with m := { ms.m with tags := ainsert k s ms.m.tags } }

/-- Modelled from the spec: `v[k] = x` on the field view (§4.3):
identical to the tag view with values marshalled through the
field marshaller. -/
def setField (ms : MState) (k : String) (v : SValue) : Except Err MState :=
  match toFieldValue v with
  | .error e => .error e
  | .ok fv =>
    if (alookup k ms.m.fields).isSome then
      .ok { ms with m := { ms.m with fields := ainsert k fv ms.m.fields } }
    else if ms.fieldsIter ≠ 0 then .error .runtimeGuard
    else .ok { ms with m := { ms.m with fields := ainsert k fv ms.m.fields } }

/-- Modelled from the spec: `v.pop(k)` (§4.2, §4.3): structural, so the
guard is checked before any change (§4.5); then `KeyError` when the key
is absent, otherwise the entry is removed. -/
def popKeyM (ms : MState) (V : View) (k : String) : Except Err MState :=
  if ms.iterOf V ≠ 0 then .error .runtimeGuard
  else
    match V with
    | .tags =>
      match alookup k ms.m.tags with
      | none => .error .keyError
      | some _ => .ok { ms with m := { ms.m with tags := aerase k ms.m.tags } }
    | .fields =>
      match alookup k ms.m.fields with
      | none => .error .keyError
      | some _ => .ok { ms with m := { ms.m with fields := aerase k ms.m.fields } }

/-- Modelled from the spec: `v.popitem()` (§4.2, §4.3): structural, so
guard first; `KeyError` on an empty view; otherwise an existing entry
(the first) is removed. -/
def popitemM (ms : MState) (V : View) : Except Err MState :=
  if ms.iterOf V ≠ 0 then .error .runtimeGuard
  else
    match V with
    | .tags =>
      match ms.m.tags with
      | [] => .error .keyError
      | _ :: rest => .ok { ms with m := { ms.m with tags := rest } }
    | .fields =>
      match ms.m.fields with
      | [] => .error .keyError
      | _ :: rest => .ok { ms with m := { ms.m with fields := rest } }

/-- Modelled from the spec: `v.clear()` (§4.2, §4.3): structural, so
guard first; then all entries are removed. -/
def clearM (ms : MState) (V : View) : Except Err MState :=
  if ms.iterOf V ≠ 0 then .error .runtimeGuard
  else
    match V with
    | .tags => .ok { ms with m := { ms.m with tags := [] } }
    | .fields => .ok { ms with m := { ms.m with fields := [] } }

/-- Modelled from the spec: beginning an iteration over a view
increments its guard counter (§4.5). -/
def beginIterM (ms : MState) : View → MState
  | .tags => { ms with tagsIter := ms.tagsIter + 1 }
  | .fields => { ms with fieldsIter := ms.fieldsIter + 1 }

/-- Modelled from the spec: ending an iteration (normally or abruptly)
decrements the guard counter (§4.5). -/
def endIterM (ms : MState) : View → MState
  | .tags => { ms with tagsIter := ms.tagsIter - 1 }
  | .fields => { ms with fieldsIter := ms.fieldsIter - 1 }

/-- Apply a wrapper-level action to the metric at heap reference `r`. -/
def updRef (st : VState) (r : Nat) (f : MState → Except Err MState) : Except Err VState :=
  match st.heap[r]? with
  | none => .error .scriptError
  | some ms =>
    match f ms with
    | .error e => .error e
    | .ok ms2 => .ok ⟨st.heap.set r ms2⟩

/-- Modelled from the spec: one step of a script invocation, covering
the bridge operations of §4.1 to §4.5 and the frozen module scope of
§4.6: attribute writes to `name` and `time` are type-checked by the
marshaller, `metric.tags` and `metric.fields` are readable but not
assignable (`AttributeError`, §4.4), `deepcopy` clones the referenced
metric into a fresh wrapper, `Metric(name)` allocates an empty metric
with timestamp 0, module-scope reads succeed and module-scope writes
fail (§3). -/
def execOp : Op → VState → Except Err VState
  | .setName r v, st =>
    updRef st r fun ms =>
      match v with
      | .strV s => .ok { ms with m := { ms.m with name := s } }
      | _ => .error .typeError
  | .setTime r v, st =>
    updRef st r fun ms =>
      match v with
      | .intV i => .ok { ms with m := { ms.m with time := i } }
      | _ => .error .typeError
  | .setKey r .tags k v, st => updRef st r fun ms => setTag ms k v
  | .setKey r .fields k v, st => updRef st r fun ms => setField ms k v
  | .popKey r V k, st => updRef st r fun ms => popKeyM ms V k
  | .popitem r V, st => updRef st r fun ms => popitemM ms V
  | .clearAll r V, st => updRef st r fun ms => clearM ms V
  | .beginIter r V, st => updRef st r fun ms => .ok (beginIterM ms V)
  | .endIter r V, st => updRef st r fun ms => .ok (endIterM ms V)
  | .readView r _, st => updRef st r fun ms => .ok ms
  | .setattrView r _, st => updRef st r fun _ => .error .attributeError
  | .deepcopy r, st =>
    match st.heap[r]? with
    | none => .error .scriptError
    | some ms => .ok ⟨st.heap ++ [⟨ms.m, 0, 0⟩]⟩
  | .newMetric name, st => .ok ⟨st.heap ++ [⟨⟨name, [], [], 0⟩, 0, 0⟩]⟩
  | .readGlobal, st => .ok st
  | .writeGlobal, _ => .error .frozenError

/-- Run a list of operations, stopping at the first error (§7: the
script aborts at the first uncaught error). -/
def execOps : List Op → VState → Except Err VState
  | [], st => .ok st
  | op :: rest, st =>
    match execOp op st with
    | .error e => .error e
    | .ok st2 => execOps rest st2

/-- Modelled from the spec: the value `apply` returns (§4.6): `None`, a
single Metric value, or a sequence of Metric values, each given by its
heap reference. -/
inductive RetSpec where
  | noneR
  | one (r : Nat)
  | seq (rs : List Nat)
deriving DecidableEq

/-- A script invocation in the shallow embedding: the operations `apply`
performs on the wrapped metrics, then the value it returns. -/
structure Script where
  ops : List Op
  ret : RetSpec
deriving DecidableEq

/-- Modelled from the spec: collection of a returned sequence by the
processor frontend (§4.7), with host-metric identity compared at return
time.  Where the spec's §4.7 says a duplicate reference drops the input
and all results, the repository's own test pins down the opposite
behaviour (src/unnamed/part_000 lines 172 to 197, "cannot return
multiple references to same metric": `return [metric, metric]` is
expected to emit exactly one metric), so this model follows the test: a
reference already collected is skipped and collection continues. -/
def collectSeq (st : VState) : List Nat → List Nat → Option (List Metric)
  | [], _ => some []
  | r :: rs, seen =>
    match st.heap[r]? with
    | none => none
    | some ms =>
      if r ∈ seen then collectSeq st rs seen
      else (collectSeq st rs (r :: seen)).map (ms.m :: ·)

/-- Modelled from the spec: interpretation of the return value (§4.6):
`None` emits nothing, a Metric value emits the host metric it wraps, a
sequence emits its elements in order (with §4.7 identity handling in
`collectSeq`).  An invalid reference is a script error, signalled by
`none`. -/
def interpretRet (ret : RetSpec) (st : VState) : Option (List Metric) :=
  match ret with
  | .noneR => some []
  | .one r => (st.heap[r]?).map fun ms => [ms.m]
  | .seq rs => collectSeq st rs []

/-- The invocation state at entry of `apply`: the input metric wrapped
at heap reference 0, both guard counters zero. -/
def initState (m : Metric) : VState := ⟨[⟨m, 0, 0⟩]⟩

/-- Modelled from the spec: one per-metric invocation by the processor
frontend (§4.6, §4.7, §7) under the `drop` on-error policy: run the
script on the wrapped input; any invocation-level error drops the input
metric (zero metrics emitted); otherwise the interpreted return value is
emitted. -/
def applyOne (s : Script) (m : Metric) : List Metric :=
  match execOps s.ops (initState m) with
  | .error _ => []
  | .ok st =>
    match interpretRet s.ret st with
    | none => []
    | some ms => ms

/-- Modelled from the spec: the processor's Apply over a batch: each
input metric is processed independently in delivery order (§5). -/
def Apply (s : Script) (ms : List Metric) : List Metric :=
  ms.flatMap (applyOne s)

/-- Modelled from the spec: a binding of the frozen module scope: either
a function of the given arity or a plain value (§4.6 step 5). -/
inductive Binding where
  | func (arity : Nat)
  | scalar (v : SValue)
deriving DecidableEq

/-- Modelled from the spec: the module scope produced by evaluating the
user source's top level (§4.6 step 3). -/
structure ModuleScope where
  bindings : List (String × Binding)
deriving DecidableEq

/-- The processor's configuration (the Starlark plugin's `Source` and
`OnError` settings, §6). -/
structure Plugin where
  source : String
  onError : String
deriving DecidableEq

/-- Modelled from the spec: the §4.6 step-5 check that the module scope
binds `apply` to a callable of exactly one positional argument. -/
def bindingIsUnaryFunc : Option Binding → Bool
  | some (.func 1) => true
  | _ => false

/-- Modelled from the spec: the processor's Init (§4.6, §6).  Parsing
itself is not modelled; the result of compiling `p.source` is supplied
as `compiled` (`none` meaning a parse failure).  Init fails on an empty
source, on a parse failure, when `apply` is not bound to a function of
exactly one argument, and when `on_error` is not a recognized value
(only `drop` is recognized). -/
def Init (p : Plugin) (compiled : Option ModuleScope) : Except Err Unit :=
  if p.source = "" then .error .initError
  else
    match compiled with
    | none => .error .initError
    | some md =>
      if bindingIsUnaryFunc (alookup "apply" md.bindings) then
        (if p.onError = "drop" then .ok () else .error .initError)
      else .error .initError

/-- The invocation state just after `beginIter` on view `V` of the input
metric: the view's guard counter is 1. -/
def iterState (V : View) (m : Metric) : VState := ⟨[beginIterM ⟨m, 0, 0⟩ V]⟩

/-- Key presence in the given view of a metric. -/
def hasKey (m : Metric) (V : View) (k : String) : Bool :=
  match V with
  | .tags => (alookup k m.tags).isSome
  | .fields => (alookup k m.fields).isSome

/-- Number of entries in the given view of a metric. -/
def viewSize (m : Metric) (V : View) : Nat :=
  match V with
  | .tags => m.tags.length
  | .fields => m.fields.length

/-- The input metric of the repository's alias test (src/unnamed/part_000
lines 179 to 187): measurement cpu, no tags, one float field, time 0. -/
def aliasInput : Metric := ⟨"cpu", [], [("time_idle", .float 42)], 0⟩

/-- The script of the repository's alias test: `apply` performs no
mutation and returns `[metric, metric]`, the same host metric twice. -/
def aliasScript : Script := ⟨[], .seq [0, 0]⟩

/-- First-occurrence deduplication of a reference list, given the
references already collected: the order of surviving references is the
order of their first occurrences.  This is the reference trace of
`collectSeq`. -/
def firstDedup : List Nat → List Nat → List Nat
  | [], _ => []
  | r :: rs, seen => if r ∈ seen then firstDedup rs seen else r :: firstDedup rs (r :: seen)

/-- A non-string script value is rejected by the tag marshaller. -/
theorem toTagValue_err (v : SValue) (h : v.isStringV = false) :
    toTagValue v = .error .typeError := by
  cases v <;> simp [SValue.isStringV] at h ⊢ <;> rfl

/-- A script value outside the field-value union is rejected by the
field marshaller. -/
theorem toFieldValue_err (v : SValue) (h : fieldRepresentable v = false) :
    toFieldValue v = .error .typeError := by
  cases v with
  | noneV => rfl
  | dictV => rfl
  | listV => rfl
  | tupleV => rfl
  | strV s => simp [fieldRepresentable] at h
  | boolV b => simp [fieldRepresentable] at h
  | floatV p => simp [fieldRepresentable] at h
  | intV i =>
    simp only [fieldRepresentable, Bool.and_eq_false_iff, decide_eq_false_iff_not] at h
    rcases h with h | h <;>
      · simp only [toFieldValue]
        split_ifs <;> first | rfl | omega

/-- Running a list of operations that contains a write to the frozen
module scope always aborts with an error. -/
theorem execOps_err_of_writeGlobal :
    ∀ (ops : List Op) (st : VState), Op.writeGlobal ∈ ops →
      ∃ e, execOps ops st = .error e := by
  intro ops
  induction ops with
  | nil => intro st h; cases h
  | cons op rest ih =>
    intro st h
    cases h with
    | head => exact ⟨.frozenError, rfl⟩
    | tail _ hmem =>
      cases hexec : execOp op st with
      | error e => exact ⟨e, by simp [execOps, hexec]⟩
      | ok st2 =>
        obtain ⟨e, he⟩ := ih st2 hmem
        exact ⟨e, by simp [execOps, hexec, he]⟩

/-- Collecting a duplicate-free sequence of valid references yields
exactly the referenced metrics, in order. -/
theorem collectSeq_eq_of_nodup (st : VState) :
    ∀ (rs seen : List Nat), rs.Nodup → (∀ r ∈ rs, r ∉ seen) →
      (∀ r ∈ rs, (st.heap[r]?).isSome) →
      collectSeq st rs seen =
        some (rs.filterMap fun r => (st.heap[r]?).map fun ms => ms.m) := by
  intro rs
  induction rs with
  | nil => intro seen _ _ _; rfl
  | cons r rs ih =>
    intro seen hnd hseen hvalid
    obtain ⟨ms, hms⟩ := Option.isSome_iff_exists.mp (hvalid r (List.mem_cons_self r rs))
    have hr : r ∉ seen := hseen r (List.mem_cons_self r rs)
    have hrec := ih (r :: seen) hnd.of_cons
      (by
        intro x hx
        simp only [List.mem_cons, not_or]
        exact ⟨fun hxr => (List.nodup_cons.mp hnd).1 (hxr ▸ hx),
               hseen x (List.mem_cons_of_mem r hx)⟩)
      (fun x hx => hvalid x (List.mem_cons_of_mem r hx))
    simp [collectSeq, hms, hr, hrec]

/-- When the key is absent (an insertion is structural), mapping over
filterMap with everything valid has full length. -/
theorem filterMap_get_length (st : VState) (rs : List Nat)
    (hvalid : ∀ r ∈ rs, (st.heap[r]?).isSome) :
    (rs.filterMap fun r => (st.heap[r]?).map fun ms => ms.m).length = rs.length := by
  induction rs with
  | nil => rfl
  | cons r rs ih =>
    obtain ⟨ms, hms⟩ := Option.isSome_iff_exists.mp (hvalid r (List.mem_cons_self r rs))
    simp [hms, ih fun x hx => hvalid x (List.mem_cons_of_mem r hx)]

/-- Collecting any sequence of valid references yields exactly the
metrics of the first-occurrence deduplication of the reference list, in
that order: a reference already collected is skipped, everything else is
emitted. -/
theorem collectSeq_eq_firstDedup (st : VState) :
    ∀ (rs seen : List Nat), (∀ r ∈ rs, (st.heap[r]?).isSome) →
      collectSeq st rs seen =
        some ((firstDedup rs seen).filterMap fun r => (st.heap[r]?).map fun ms => ms.m) := by
  intro rs
  induction rs with
  | nil => intro seen _; rfl
  | cons r rs ih =>
    intro seen hvalid
    obtain ⟨ms, hms⟩ := Option.isSome_iff_exists.mp (hvalid r (List.mem_cons_self r rs))
    by_cases hr : r ∈ seen
    · simp [collectSeq, firstDedup, hms, hr,
        ih seen fun x hx => hvalid x (List.mem_cons_of_mem r hx)]
    · simp [collectSeq, firstDedup, hms, hr,
        ih (r :: seen) fun x hx => hvalid x (List.mem_cons_of_mem r hx)]

/-- The first-occurrence deduplication avoids the already-seen
references, is duplicate-free, is a sublist of its input (so it keeps
first-occurrence order), and keeps exactly the input references that
were not already seen. -/
theorem firstDedup_props :
    ∀ (rs seen : List Nat),
      (firstDedup rs seen).Nodup ∧
      List.Sublist (firstDedup rs seen) rs ∧
      (∀ r, r ∈ firstDedup rs seen ↔ r ∈ rs ∧ r ∉ seen) := by
  intro rs
  induction rs with
  | nil => intro seen; exact ⟨List.nodup_nil, List.Sublist.refl [], by simp [firstDedup]⟩
  | cons r rs ih =>
    intro seen
    by_cases hr : r ∈ seen
    · obtain ⟨h1, h2, h3⟩ := ih seen
      refine ⟨?_, ?_, ?_⟩
      · simpa [firstDedup, hr] using h1
      · simp only [firstDedup, if_pos hr]
        exact h2.cons r
      · intro x
        simp only [firstDedup, if_pos hr, h3, List.mem_cons]
        constructor
        · rintro ⟨hx, hxs⟩
          exact ⟨Or.inr hx, hxs⟩
        · rintro ⟨hx | hx, hxs⟩
          · exact absurd (hx ▸ hr) hxs
          · exact ⟨hx, hxs⟩
    · obtain ⟨h1, h2, h3⟩ := ih (r :: seen)
      refine ⟨?_, ?_, ?_⟩
      · simp only [firstDedup, if_neg hr, List.nodup_cons]
        refine ⟨fun hmem => ?_, h1⟩
        exact ((h3 r).mp hmem).2 (List.mem_cons_self r seen)
      · simp only [firstDedup, if_neg hr]
        exact h2.cons₂ r
      · intro x
        simp only [firstDedup, if_neg hr, List.mem_cons, h3]
        constructor
        · rintro (hx | ⟨hx, hxs⟩)
          · exact ⟨Or.inl hx, hx ▸ hr⟩
          · exact ⟨Or.inr hx, fun hxseen => hxs (Or.inr hxseen)⟩
        · rintro ⟨hx | hx, hxs⟩
          · exact Or.inl hx
          · by_cases hxr : x = r
            · exact Or.inl hxr
            · exact Or.inr ⟨hx, by simp [List.mem_cons, hxr, hxs]⟩

/-- C8: for every input metric, the passthrough script whose `apply`
returns its argument unchanged emits exactly one metric whose name,
tags, fields and time equal those of the input. -/
theorem c8_passthrough (m : Metric) :
    ∃ m2, applyOne ⟨[], .one 0⟩ m = [m2] ∧ m2.name = m.name ∧
      m2.tags = m.tags ∧ m2.fields = m.fields ∧ m2.time = m.time :=
  ⟨m, rfl, rfl, rfl, rfl, rfl⟩

/-- C10: evaluating `metric.tags` or `metric.fields` as a bare
expression (an attribute read with no operation on the view) has no
effect: the invocation succeeds and the metric is emitted unchanged. -/
theorem c10_bare_view_read (m : Metric) :
    applyOne ⟨[.readView 0 .tags], .one 0⟩ m = [m] ∧
    applyOne ⟨[.readView 0 .fields], .one 0⟩ m = [m] :=
  ⟨rfl, rfl⟩

/-- C1 counterexample: on the repository's alias test input, a script
returning the same underlying host metric twice emits one metric (the
duplicate reference is skipped), not zero as the claim states. -/
theorem c1_alias_counterexample :
    applyOne aliasScript aliasInput = [aliasInput] ∧
    applyOne aliasScript aliasInput ≠ [] :=
  ⟨rfl, by decide⟩

/-- C1 amended: when `apply` returns a sequence of references to host
metrics, duplicate references are skipped rather than the whole result
dropped: for every heap and every sequence of valid references, the
emitted metrics are exactly those of the first-occurrence
deduplication of the reference list, which is duplicate-free (each
distinct host metric once), a sublist of the sequence (first-occurrence
order), and covers every referenced metric.  In particular
`[metric, metric]` emits one metric equal to the input and
`[metric, copy, metric]` after a deepcopy emits two. -/
theorem c1_alias_dedup :
    (∀ (st : VState) (rs : List Nat), (∀ r ∈ rs, (st.heap[r]?).isSome) →
       interpretRet (.seq rs) st =
         some ((firstDedup rs []).filterMap fun r => (st.heap[r]?).map fun ms => ms.m)) ∧
    (∀ rs : List Nat,
       (firstDedup rs []).Nodup ∧
       List.Sublist (firstDedup rs []) rs ∧
       (∀ r, r ∈ firstDedup rs [] ↔ r ∈ rs)) ∧
    (∀ m : Metric, applyOne ⟨[], .seq [0, 0]⟩ m = [m]) ∧
    (∀ m : Metric, applyOne ⟨[.deepcopy 0], .seq [0, 1, 0]⟩ m = [m, m]) := by
  refine ⟨fun st rs hvalid => ?_, fun rs => ?_, fun m => rfl, fun m => rfl⟩
  · exact collectSeq_eq_firstDedup st rs [] hvalid
  · obtain ⟨h1, h2, h3⟩ := firstDedup_props rs []
    exact ⟨h1, h2, fun r => by simpa using h3 r⟩

/-- C1 amended witness: on the repository's alias test input, the
sequence referring to the input metric twice collects exactly the
first-occurrence deduplication of its references. -/
theorem c1_dedup_witness :
    interpretRet (.seq [0, 0]) (initState aliasInput) =
      some ((firstDedup [0, 0] []).filterMap fun r =>
        ((initState aliasInput).heap[r]?).map fun ms => ms.m) :=
  c1_alias_dedup.1 (initState aliasInput) [0, 0] (by decide)

/-- C9: `deepcopy(m)` yields a fresh wrapper whose metric equals the
original in name, tags, fields and time; returning
`[metric, deepcopy(metric)]` emits two metrics with identical contents;
and mutating either of the two afterwards does not affect the other. -/
theorem c9_deepcopy (m : Metric) (k s : String) :
    execOps [.deepcopy 0] (initState m) = .ok ⟨[⟨m, 0, 0⟩, ⟨m, 0, 0⟩]⟩ ∧
    applyOne ⟨[.deepcopy 0], .seq [0, 1]⟩ m = [m, m] ∧
    applyOne ⟨[.deepcopy 0, .setKey 1 .tags k (.strV s)], .seq [0, 1]⟩ m
      = [m, { m with tags := ainsert k s m.tags }] ∧
    applyOne ⟨[.deepcopy 0, .setKey 0 .tags k (.strV s)], .seq [0, 1]⟩ m
      = [{ m with tags := ainsert k s m.tags }, m] := by
  refine ⟨rfl, rfl, ?_, ?_⟩ <;>
    · by_cases h : (alookup k m.tags).isSome <;>
        simp [applyOne, execOps, execOp, updRef, initState, setTag, toTagValue,
          interpretRet, collectSeq, h]

/-- A function binding of any arity other than one fails the unary
callable check of §4.6 step 5. -/
theorem bindingIsUnaryFunc_false_of_ne_one (n : Nat) (hn : n ≠ 1) :
    bindingIsUnaryFunc (some (.func n)) = false := by
  rcases n with _ | _ | n
  · rfl
  · exact absurd rfl hn
  · rfl

/-- C2: for every dictionary view and every structural operation
(insert of a new key, pop, popitem, clear), invoking the operation while
an iteration over that view is in progress fails with the guard error
(so no mutation is committed and the view is unchanged) and makes the
processor drop the input metric: zero metrics emitted. -/
theorem c2_guard_blocks_structural (V : View) (m : Metric) (k s : String) :
    (hasKey m V k = false →
       execOp (.setKey 0 V k (.strV s)) (iterState V m) = .error .runtimeGuard ∧
       applyOne ⟨[.beginIter 0 V, .setKey 0 V k (.strV s)], .one 0⟩ m = []) ∧
    (execOp (.popKey 0 V k) (iterState V m) = .error .runtimeGuard ∧
       applyOne ⟨[.beginIter 0 V, .popKey 0 V k], .one 0⟩ m = []) ∧
    (execOp (.popitem 0 V) (iterState V m) = .error .runtimeGuard ∧
       applyOne ⟨[.beginIter 0 V, .popitem 0 V], .one 0⟩ m = []) ∧
    (execOp (.clearAll 0 V) (iterState V m) = .error .runtimeGuard ∧
       applyOne ⟨[.beginIter 0 V, .clearAll 0 V], .one 0⟩ m = []) := by
  cases V <;>
    refine ⟨fun h => ?_, ?_, ?_, ?_⟩ <;>
      simp_all [hasKey, applyOne, execOps, execOp, updRef, iterState, initState,
        setTag, setField, popKeyM, popitemM, clearM, beginIterM, MState.iterOf,
        toTagValue, toFieldValue, interpretRet]

/-- C2 witness: with the tag view under iteration, inserting the new
tag key i fails with the guard error and the metric is dropped. -/
theorem c2_witness :
    execOp (.setKey 0 .tags "i" (.strV "j")) (iterState .tags aliasInput)
        = .error .runtimeGuard ∧
    applyOne ⟨[.beginIter 0 .tags, .setKey 0 .tags "i" (.strV "j")], .one 0⟩ aliasInput
        = [] :=
  (c2_guard_blocks_structural .tags aliasInput "i" "j").1 (by decide)

/-- C3: iterating over one view does not block structural change to the
other: inserting a new field while the tag view is under iteration (and
a new tag while the field view is under iteration) succeeds, and the
metric is emitted with the insertion applied. -/
theorem c3_iteration_one_view_only (m : Metric) (k s : String) :
    (hasKey m .fields k = false →
       applyOne ⟨[.beginIter 0 .tags, .setKey 0 .fields k (.strV s), .endIter 0 .tags],
           .one 0⟩ m
         = [{ m with fields := ainsert k (.str s) m.fields }]) ∧
    (hasKey m .tags k = false →
       applyOne ⟨[.beginIter 0 .fields, .setKey 0 .tags k (.strV s), .endIter 0 .fields],
           .one 0⟩ m
         = [{ m with tags := ainsert k s m.tags }]) := by
  constructor <;> intro h <;>
    simp_all [hasKey, applyOne, execOps, execOp, updRef, initState, setTag, setField,
      beginIterM, endIterM, toTagValue, toFieldValue, interpretRet]

/-- C3 witness: inserting the field host while iterating the tag view
succeeds on the concrete test metric. -/
theorem c3_witness :
    applyOne ⟨[.beginIter 0 .tags, .setKey 0 .fields "host" (.strV "pc"),
        .endIter 0 .tags], .one 0⟩ aliasInput
      = [{ aliasInput with fields := ainsert "host" (.str "pc") aliasInput.fields }] :=
  (c3_iteration_one_view_only aliasInput "host" "pc").1 (by decide)

/-- C4: a non-string value assigned into a tag, a value outside the
field-value union assigned into a field, and a non-string assigned to
the metric name each raise a TypeError that aborts the invocation, and
the processor emits zero metrics. -/
theorem c4_assignment_type_errors (m : Metric) (k : String) (v : SValue) :
    (v.isStringV = false →
       execOp (.setKey 0 .tags k v) (initState m) = .error .typeError ∧
       applyOne ⟨[.setKey 0 .tags k v], .one 0⟩ m = []) ∧
    (fieldRepresentable v = false →
       execOp (.setKey 0 .fields k v) (initState m) = .error .typeError ∧
       applyOne ⟨[.setKey 0 .fields k v], .one 0⟩ m = []) ∧
    (v.isStringV = false →
       execOp (.setName 0 v) (initState m) = .error .typeError ∧
       applyOne ⟨[.setName 0 v], .one 0⟩ m = []) := by
  refine ⟨fun h => ?_, fun h => ?_, fun h => ?_⟩
  · simp [applyOne, execOps, execOp, updRef, initState, setTag, toTagValue_err v h]
  · simp [applyOne, execOps, execOp, updRef, initState, setField, toFieldValue_err v h]
  · cases v <;> simp_all [SValue.isStringV, applyOne, execOps, execOp, updRef, initState]

/-- C4 witness: assigning a script dict into a field (the repository's
set field type error test) raises TypeError and drops the metric. -/
theorem c4_witness :
    execOp (.setKey 0 .fields "time_idle" SValue.dictV) (initState aliasInput)
        = .error .typeError ∧
    applyOne ⟨[.setKey 0 .fields "time_idle" SValue.dictV], .one 0⟩ aliasInput = [] :=
  (c4_assignment_type_errors aliasInput "time_idle" SValue.dictV).2.1 (by decide)

/-- C5: return-value semantics: None emits zero metrics, a single
Metric value emits exactly one, and a sequence of distinct Metric values
emits one metric per entry, in sequence order. -/
theorem c5_return_semantics :
    (∀ m : Metric, applyOne ⟨[], .noneR⟩ m = []) ∧
    (∀ m : Metric, applyOne ⟨[], .one 0⟩ m = [m]) ∧
    (∀ m : Metric, applyOne ⟨[.deepcopy 0], .seq [0, 1]⟩ m = [m, m]) ∧
    (∀ (st : VState) (rs : List Nat), rs.Nodup →
       (∀ r ∈ rs, (st.heap[r]?).isSome) →
       interpretRet (.seq rs) st =
         some (rs.filterMap fun r => (st.heap[r]?).map fun ms => ms.m) ∧
       (rs.filterMap fun r => (st.heap[r]?).map fun ms => ms.m).length = rs.length) := by
  refine ⟨fun m => rfl, fun m => rfl, fun m => rfl, fun st rs hnd hvalid => ⟨?_, ?_⟩⟩
  · exact collectSeq_eq_of_nodup st rs [] hnd (by simp) hvalid
  · exact filterMap_get_length st rs hvalid

/-- C5 witness: the distinct singleton sequence over the concrete test
input collects exactly its one referenced metric. -/
theorem c5_witness :
    interpretRet (.seq [0]) (initState aliasInput) =
      some ([0].filterMap fun r => ((initState aliasInput).heap[r]?).map fun ms => ms.m) ∧
    ([0].filterMap fun r =>
        ((initState aliasInput).heap[r]?).map fun ms => ms.m).length = [0].length :=
  c5_return_semantics.2.2.2 (initState aliasInput) [0] (by decide) (by decide)

/-- C6: mutating a module-scope binding from inside apply aborts the
invocation with a script-level error and zero metrics are emitted,
while reading a module-scope binding remains permitted. -/
theorem c6_frozen_module_scope :
    (∀ (m : Metric) (ops : List Op) (ret : RetSpec), Op.writeGlobal ∈ ops →
       applyOne ⟨ops, ret⟩ m = []) ∧
    (∀ m : Metric, applyOne ⟨[.readGlobal], .one 0⟩ m = [m]) := by
  constructor
  · intro m ops ret h
    obtain ⟨e, he⟩ := execOps_err_of_writeGlobal ops (initState m) h
    simp [applyOne, he]
  · intro m; rfl

/-- C6 witness: a script whose only operation writes the frozen module
scope emits no metric for the concrete test input. -/
theorem c6_witness :
    applyOne ⟨[Op.writeGlobal], .one 0⟩ aliasInput = [] :=
  c6_frozen_module_scope.1 aliasInput [Op.writeGlobal] (.one 0) (by simp)

/-- C7: Init returns an error when the source is empty, when the source
fails to parse, when apply is absent, bound to a non-function, or bound
to a function whose arity is not one, and when the on-error setting is
unrecognized. -/
theorem c7_init_error_cases (p : Plugin) (compiled : Option ModuleScope) :
    (p.source = "" → Init p compiled = .error .initError) ∧
    (compiled = none → Init p compiled = .error .initError) ∧
    (∀ md, compiled = some md → alookup "apply" md.bindings = none →
       Init p compiled = .error .initError) ∧
    (∀ md v, compiled = some md → alookup "apply" md.bindings = some (.scalar v) →
       Init p compiled = .error .initError) ∧
    (∀ md n, compiled = some md → alookup "apply" md.bindings = some (.func n) → n ≠ 1 →
       Init p compiled = .error .initError) ∧
    (p.onError ≠ "drop" → Init p compiled = .error .initError) := by
  refine ⟨fun h => ?_, fun h => ?_, fun md h hl => ?_, fun md v h hl => ?_,
    fun md n h hl hn => ?_, fun h => ?_⟩
  · simp [Init, h]
  · subst h; simp [Init]
  · subst h; simp [Init, hl, bindingIsUnaryFunc]
  · subst h; simp [Init, hl, bindingIsUnaryFunc]
  · subst h; simp [Init, hl, bindingIsUnaryFunc_false_of_ne_one n hn]
  · by_cases hs : p.source = ""
    · simp [Init, hs]
    · rcases compiled with _ | md
      · simp [Init, hs]
      · by_cases hb : bindingIsUnaryFunc (alookup "apply" md.bindings)
        · simp [Init, hs, hb, h]
        · simp [Init, hs, hb]

/-- C7 witness: the empty source is refused at Init. -/
theorem c7_witness :
    Init ⟨"", "drop"⟩ none = .error .initError :=
  (c7_init_error_cases ⟨"", "drop"⟩ none).1 rfl

end Starlark
